import Mathlib

/-!
Verification of the `cu_bench` compute-unit benchmarking engine of
`litesvm-testing`, shallowly embedded from the Rust source.

Sources embedded:
- `src/crates/litesvm-testing/src/cu_bench/estimate.rs`
  (`ComputeUnitStats`, `ComputeUnitLevel`, `from_measurements`, `get_cu_for_level`)
- `src/crates/litesvm-testing/src/cu_bench/mod.rs`
  (the older `ComputeUnitEstimate::from_measurements` with the divergent
  percentile index formula)
- `src/crates/litesvm-testing/src/cu_bench/context.rs`
  (`extract_program_context`, `extract_workflow_context`,
  `discover_instruction_context`, `discover_transaction_context`)
- `src/crates/litesvm-testing/src/cu_bench/runner.rs`
  (`benchmark_instruction`, `benchmark_transaction`, the measurement loops)

Modelling conventions:
- Machine integers (`u64`, `usize`) are `Nat`; none of the embedded code
  performs arithmetic that can overflow (indices and counts only).
- Rust panics (out-of-bounds indexing such as `sorted[0]` on an empty vector,
  `signer_pubkeys[0]` on an empty signer list, and `.unwrap()` on a failed
  simulation or execution) are modelled as `Option.none`.
- `sort_unstable` on `u64` is modelled by `List.insertionSort (· ≤ ·)`:
  any correct ascending sort of natural numbers produces the same list.
- `Pubkey` and `Hash` are modelled as `Nat`; `HashMap<Pubkey, String>`
  (the address book) as an association list.
- The iteration order of `HashMap::into_iter` over `program_usage` is
  unspecified in Rust; the embedding fixes first-insertion order, which
  realises one admissible behaviour and determines the entry multiset.
-/

namespace CuBench

abbrev Pubkey := Nat
abbrev Hash := Nat
abbrev AddressBook := List (Pubkey × String)

/-! ## estimate.rs : percentile statistics -/

/-- `StatType` from estimate.rs: type and name of the benchmark. -/
inductive StatType where
  | Instruction (name : String)
  | Transaction (name : String)
deriving DecidableEq, Repr

/-- `ComputeUnitLevel` from estimate.rs, without the `Multiplier(f32)`
variant, whose IEEE-754 `f32` arithmetic is outside this embedding. -/
inductive ComputeUnitLevel where
  | Min
  | Conservative
  | Balanced
  | Safe
  | VeryHigh
  | UnsafeMax
  | Custom (cu : Nat)
deriving DecidableEq, Repr

/-- `ComputeUnitStats` from estimate.rs. -/
structure ComputeUnitStats where
  stat_type : StatType
  min : Nat
  conservative : Nat
  balanced : Nat
  safe : Nat
  very_high : Nat
  unsafe_max : Nat
  sample_size : Nat
deriving DecidableEq, Repr

/-- `ComputeUnitStats::get_cu_for_level` from estimate.rs, restricted to the
non-floating-point levels. -/
def ComputeUnitStats.get_cu_for_level (s : ComputeUnitStats) : ComputeUnitLevel → Nat
  | ComputeUnitLevel.Min => s.min
  | ComputeUnitLevel.Conservative => s.conservative
  | ComputeUnitLevel.Balanced => s.balanced
  | ComputeUnitLevel.Safe => s.safe
  | ComputeUnitLevel.VeryHigh => s.very_high
  | ComputeUnitLevel.UnsafeMax => s.unsafe_max
  | ComputeUnitLevel.Custom cu => cu

/-- `ComputeUnitStats::from_measurements` from estimate.rs.  Sorts the
measurements ascending, reads `min` at index 0, `unsafe_max` at `len - 1`,
and each percentile P at index `(len - 1) * P / 100`.  The Rust code indexes
`sorted[0]` directly and panics on an empty slice; the panic is `none` here. -/
def ComputeUnitStats.from_measurements (stat_type : StatType)
    (measurements : List Nat) : Option ComputeUnitStats :=
  let sorted := List.insertionSort (· ≤ ·) measurements
  let len := sorted.length
  match sorted[0]?, sorted[len - 1]?, sorted[(len - 1) * 25 / 100]?,
      sorted[(len - 1) * 50 / 100]?, sorted[(len - 1) * 75 / 100]?,
      sorted[(len - 1) * 95 / 100]? with
  | some mn, some mx, some conservative, some balanced, some safe, some very_high =>
      some { stat_type := stat_type, min := mn, conservative := conservative,
             balanced := balanced, safe := safe, very_high := very_high,
             unsafe_max := mx, sample_size := len }
  | _, _, _, _, _, _ => none

/-! ## mod.rs : the older estimator with the divergent index formula -/

/-- `ComputeUnitEstimate` from mod.rs (the historical revision of the
estimator). -/
structure ComputeUnitEstimate where
  instruction_type : String
  min : Nat
  conservative : Nat
  balanced : Nat
  safe : Nat
  very_high : Nat
  unsafe_max : Nat
  sample_size : Nat
  environments : List String
deriving DecidableEq, Repr

/-- `ComputeUnitEstimate::from_measurements` from mod.rs: identical to the
estimate.rs version except that each percentile P is read at index
`len * P / 100` (no `len - 1`). -/
def ComputeUnitEstimate.from_measurements (instruction_type : String)
    (measurements : List Nat) (environments : List String) :
    Option ComputeUnitEstimate :=
  let sorted := List.insertionSort (· ≤ ·) measurements
  let len := sorted.length
  match sorted[0]?, sorted[len - 1]?, sorted[len * 25 / 100]?,
      sorted[len * 50 / 100]?, sorted[len * 75 / 100]?,
      sorted[len * 95 / 100]? with
  | some mn, some mx, some conservative, some balanced, some safe, some very_high =>
      some { instruction_type := instruction_type, min := mn,
             conservative := conservative, balanced := balanced, safe := safe,
             very_high := very_high, unsafe_max := mx, sample_size := len,
             environments := environments }
  | _, _, _, _, _, _ => none

/-! ## context.rs : execution-context extraction -/

/-- `CompiledInstruction` (solana-message) as used by context.rs: only the
`program_id_index` into the message account keys is read. -/
structure CompiledInstruction where
  program_id_index : Nat
deriving DecidableEq, Repr

/-- `Message` (solana-message) as read by context.rs and written by runner.rs:
account keys, compiled instructions and the recent blockhash. -/
structure Message where
  account_keys : List Pubkey
  instructions : List CompiledInstruction
  recent_blockhash : Hash
deriving DecidableEq, Repr

/-- `Transaction` (solana-transaction) as read by the embedded code; only the
message is inspected (signatures are never read by cu_bench). -/
structure Transaction where
  message : Message
deriving DecidableEq, Repr

/-- `InnerInstruction` (litesvm): an inner (CPI) call record; context.rs reads
only `inner_instruction.instruction.program_id_index`. -/
structure InnerInstruction where
  instruction : CompiledInstruction
deriving DecidableEq, Repr

/-- The `meta` of litesvm's `SimulatedTransactionInfo`: the fields read by
context.rs (`inner_instructions`, `logs`, `compute_units_consumed`). -/
structure TransactionMetadata where
  inner_instructions : List (List InnerInstruction)
  logs : List String
  compute_units_consumed : Nat
deriving DecidableEq, Repr

/-- litesvm's `SimulatedTransactionInfo`, reduced to the `meta` read here. -/
structure SimulatedTransactionInfo where
  meta : TransactionMetadata
deriving DecidableEq, Repr

/-- `ProgramContext` from context.rs. -/
structure ProgramContext where
  program_id : Pubkey
  program_name : String
  cpi_count : Nat
deriving DecidableEq, Repr

/-- `ProgramInfo` from context.rs: one involved program with its
invocation count. -/
structure ProgramInfo where
  program_id : Pubkey
  program_name : String
  instruction_count : Nat
deriving DecidableEq, Repr

/-- `WorkflowContext` from context.rs. -/
structure WorkflowContext where
  workflow_name : String
  involved_programs : List ProgramInfo
  cpi_sequence : List String
  total_cpi_calls : Nat
deriving DecidableEq, Repr

/-- `ExecutionStats` from context.rs. -/
structure ExecutionStats where
  logs : List String
  simulated_cu : Nat
deriving DecidableEq, Repr

/-- `SVMContext` from context.rs. -/
structure SVMContext where
  current_slot : Nat
  latest_blockhash : Hash
deriving DecidableEq, Repr

/-- `InstructionExecutionContext` from context.rs. -/
structure InstructionExecutionContext where
  svm_context : SVMContext
  program_context : ProgramContext
  execution_stats : ExecutionStats
deriving DecidableEq, Repr

/-- `TransactionExecutionContext` from context.rs. -/
structure TransactionExecutionContext where
  svm_context : SVMContext
  workflow_context : WorkflowContext
  execution_stats : ExecutionStats
deriving DecidableEq, Repr

/-- `lookup_program_name` from context.rs: address-book lookup with graceful
fallback to the pubkey's canonical string form. -/
def lookup_program_name (program_id : Pubkey) (address_book : AddressBook) : String :=
  match address_book.lookup program_id with
  | some name => name
  | none => toString program_id

/-- `extract_program_context` from context.rs: reads the single instruction
(`instructions[0]`, a panic — `none` — when absent), resolves its program id
through the account keys, and reports `inner_instructions.len()` as
`cpi_count`. -/
def extract_program_context (transaction : Transaction)
    (simulation : SimulatedTransactionInfo) (address_book : AddressBook) :
    Option ProgramContext := do
  let target_instruction ← transaction.message.instructions[0]?
  let program_id ← transaction.message.account_keys[target_instruction.program_id_index]?
  some { program_id := program_id,
         program_name := lookup_program_name program_id address_book,
         cpi_count := simulation.meta.inner_instructions.length }

/-- `extract_execution_stats` from context.rs. -/
def extract_execution_stats (simulation : SimulatedTransactionInfo) : ExecutionStats :=
  { logs := simulation.meta.logs,
    simulated_cu := simulation.meta.compute_units_consumed }

/-- The effect of `*program_usage.entry(program_id).or_insert(0) += 1` on the
usage table, modelled as an association list in first-insertion order (the
entry multiset of the Rust `HashMap`). -/
def bumpUsage : List (Pubkey × Nat) → Pubkey → List (Pubkey × Nat)
  | [], k => [(k, 1)]
  | (k', v) :: rest, k =>
      if k = k' then (k', v + 1) :: rest else (k', v) :: bumpUsage rest k

/-- The first loop of `extract_workflow_context`: walks the transaction's
top-level instructions, counting per-program usage and appending each
program's display name to the call sequence.  The account-key indexing
panic is `none`. -/
def walkDirectCalls (transaction : Transaction) (address_book : AddressBook) :
    List CompiledInstruction → List (Pubkey × Nat) × List String →
    Option (List (Pubkey × Nat) × List String)
  | [], acc => some acc
  | instruction :: rest, (program_usage, cpi_sequence) => do
      let program_id ←
        transaction.message.account_keys[instruction.program_id_index]?
      let program_name := lookup_program_name program_id address_book
      walkDirectCalls transaction address_book rest
        (bumpUsage program_usage program_id, cpi_sequence ++ [program_name])

/-- The body of the second loop of `extract_workflow_context`, over one
inner-instruction set: counts each inner call's program and appends its
display name suffixed with `_cpi`. -/
def walkInnerSet (transaction : Transaction) (address_book : AddressBook) :
    List InnerInstruction → List (Pubkey × Nat) × List String →
    Option (List (Pubkey × Nat) × List String)
  | [], acc => some acc
  | inner_instruction :: rest, (program_usage, cpi_sequence) => do
      let program_id ←
        transaction.message.account_keys[inner_instruction.instruction.program_id_index]?
      let program_name := lookup_program_name program_id address_book
      walkInnerSet transaction address_book rest
        (bumpUsage program_usage program_id,
         cpi_sequence ++ [program_name ++ "_cpi"])

/-- The second loop of `extract_workflow_context`: iterates the simulation's
inner-instruction sets in order, processing each set's calls in order. -/
def walkInnerCalls (transaction : Transaction) (address_book : AddressBook) :
    List (List InnerInstruction) → List (Pubkey × Nat) × List String →
    Option (List (Pubkey × Nat) × List String)
  | [], acc => some acc
  | inner_instruction_set :: rest, acc => do
      let acc ← walkInnerSet transaction address_book inner_instruction_set acc
      walkInnerCalls transaction address_book rest acc

/-- `extract_workflow_context` from context.rs: counts direct instruction
calls, then simulated inner calls, converts the usage table to a
`ProgramInfo` list, and reports `inner_instructions.len()` as
`total_cpi_calls`. -/
def extract_workflow_context (transaction : Transaction)
    (simulation : SimulatedTransactionInfo) (workflow_name : String)
    (address_book : AddressBook) : Option WorkflowContext := do
  let acc ← walkDirectCalls transaction address_book
    transaction.message.instructions ([], [])
  let (program_usage, cpi_sequence) ← walkInnerCalls transaction address_book
    simulation.meta.inner_instructions acc
  let involved_programs := program_usage.map fun (program_id, instruction_count) =>
    { program_id := program_id,
      program_name := lookup_program_name program_id address_book,
      instruction_count := instruction_count : ProgramInfo }
  some { workflow_name := workflow_name,
         involved_programs := involved_programs,
         cpi_sequence := cpi_sequence,
         total_cpi_calls := simulation.meta.inner_instructions.length }

/-! ## runner.rs : the two-phase benchmark runner

The LiteSVM environment and the solana-message compilation step are external
collaborators (spec §6); they are modelled as a capability record
`ExternalModel` over an abstract environment state `σ`, and a benchmark
definition as a record of the trait methods.  Each runner function also
returns the ordered trace of environment-work events it performed, so that
ordering claims ("before any environment work") are statable.  A trace is
returned alongside `none` when a panic (`none`) cuts the run short. -/

/-- One unit of environment work performed by the runner, in order. -/
inductive Event where
  | setup
  | expireBlockhash
  | simulate
  | execute
deriving DecidableEq, Repr

/-- `Instruction` (solana-instruction) as handled by the runner: the runner
never inspects it, it only passes it to message compilation.  Only the
program id is retained. -/
structure Instruction where
  program_id : Pubkey
deriving DecidableEq, Repr

/-- The four environment capabilities consumed from the excluded LiteSVM
collaborator (spec §6), plus `message_new`, the external solana-message
compilation of `Message::new(&[target_ix], Some(&payer))`.  `simulate` does
not commit state; `send` returns the consumed compute units and the new
committed state; either returns `none` on failure (the Rust `.unwrap()`
panics). -/
structure ExternalModel (σ : Type) where
  expire_blockhash : σ → σ
  latest_blockhash : σ → Hash
  clock_slot : σ → Nat
  message_new : Instruction → Pubkey → Message
  simulate_transaction : σ → Transaction → Option SimulatedTransactionInfo
  send_transaction : σ → Transaction → Option (Nat × σ)

/-- The `InstructionBenchmark` trait (declared only by downstream callers of
runner.rs; modelled per spec §3 as the capability set a benchmark owner
provides): a name, one-time environment setup, a work builder over the
mutable environment, a signing step, and an address book. -/
structure InstructionBenchmarkModel (σ : Type) where
  instruction_name : String
  setup_svm : σ
  build_instruction : σ → (Instruction × List Pubkey) × σ
  sign_transaction : Transaction → Transaction
  address_book : AddressBook

/-- The `TransactionBenchmark` trait, modelled as for
`InstructionBenchmarkModel`: a workflow name, one-time setup, a transaction
builder over the mutable environment, and an address book. -/
structure TransactionBenchmarkModel (σ : Type) where
  transaction_name : String
  setup_svm : σ
  build_transaction : σ → Transaction × σ
  address_book : AddressBook

/-- `InstructionBenchmarkResult` from estimate.rs, without the
`generated_at` wall-clock timestamp and `generated_by` build-identity
strings, which are environment supplied and read by no embedded code. -/
structure InstructionBenchmarkResult where
  instruction_name : String
  cu_estimate : ComputeUnitStats
  execution_context : InstructionExecutionContext
deriving DecidableEq, Repr

/-- `TransactionBenchmarkResult` from runner.rs, without `generated_at` and
`generated_by` (as in `InstructionBenchmarkResult`). -/
structure TransactionBenchmarkResult where
  transaction_name : String
  cu_estimate : ComputeUnitStats
  execution_context : TransactionExecutionContext
deriving DecidableEq, Repr

/-- `discover_instruction_context` from context.rs: build the instruction,
expire the blockhash, wrap the instruction into a message addressed to
`signer_pubkeys[0]` (a panic — `none` — when the signer list is empty),
refresh the recent blockhash, sign, simulate (`unwrap`), and extract the
program context and stats. -/
def discover_instruction_context {σ : Type} (ext : ExternalModel σ)
    (benchmark : InstructionBenchmarkModel σ) (svm : σ) :
    List Event × Option (InstructionExecutionContext × σ) :=
  let ((target_ix, signer_pubkeys), svm) := benchmark.build_instruction svm
  let svm := ext.expire_blockhash svm
  match signer_pubkeys[0]? with
  | none => ([Event.expireBlockhash], none)
  | some payer =>
    let message := ext.message_new target_ix payer
    let message := { message with recent_blockhash := ext.latest_blockhash svm }
    let signed_tx := benchmark.sign_transaction { message := message }
    match ext.simulate_transaction svm signed_tx with
    | none => ([Event.expireBlockhash, Event.simulate], none)
    | some simulation =>
      match extract_program_context signed_tx simulation benchmark.address_book with
      | none => ([Event.expireBlockhash, Event.simulate], none)
      | some program_context =>
        ([Event.expireBlockhash, Event.simulate],
         some ({ svm_context := { current_slot := ext.clock_slot svm,
                                  latest_blockhash := ext.latest_blockhash svm },
                 program_context := program_context,
                 execution_stats := extract_execution_stats simulation }, svm))

/-- `discover_transaction_context` from context.rs: simulate the prebuilt
transaction (`unwrap`) and extract the workflow context and stats. -/
def discover_transaction_context {σ : Type} (ext : ExternalModel σ)
    (transaction : Transaction) (workflow_name : String) (svm : σ)
    (address_book : AddressBook) :
    List Event × Option (TransactionExecutionContext × σ) :=
  match ext.simulate_transaction svm transaction with
  | none => ([Event.simulate], none)
  | some simulation =>
    match extract_workflow_context transaction simulation workflow_name address_book with
    | none => ([Event.simulate], none)
    | some workflow_context =>
      ([Event.simulate],
       some ({ svm_context := { current_slot := ext.clock_slot svm,
                                latest_blockhash := ext.latest_blockhash svm },
               workflow_context := workflow_context,
               execution_stats := extract_execution_stats simulation }, svm))

/-- `measure_instruction` from runner.rs: build the instruction, expire the
blockhash, build and sign the one-instruction transaction (indexing
`signer_pubkeys[0]`), send it (`unwrap`), and report the consumed compute
units. -/
def measure_instruction {σ : Type} (ext : ExternalModel σ)
    (benchmark : InstructionBenchmarkModel σ) (svm : σ) :
    List Event × Option (Nat × σ) :=
  let ((target_ix, signer_pubkeys), svm) := benchmark.build_instruction svm
  let svm := ext.expire_blockhash svm
  match signer_pubkeys[0]? with
  | none => ([Event.expireBlockhash], none)
  | some payer =>
    let message := ext.message_new target_ix payer
    let message := { message with recent_blockhash := ext.latest_blockhash svm }
    let signed_tx := benchmark.sign_transaction { message := message }
    match ext.send_transaction svm signed_tx with
    | none => ([Event.expireBlockhash, Event.execute], none)
    | some (cu, svm) => ([Event.expireBlockhash, Event.execute], some (cu, svm))

/-- The measurement loop of `benchmark_instruction` (`for i in 0..samples`):
each pass re-invokes the work builder and executes; the first failed pass
aborts the whole run. -/
def measureLoopInstruction {σ : Type} (ext : ExternalModel σ)
    (benchmark : InstructionBenchmarkModel σ) :
    Nat → σ → List Event × Option (List Nat × σ)
  | 0, svm => ([], some ([], svm))
  | n + 1, svm =>
    let (trace, outcome) := measure_instruction ext benchmark svm
    match outcome with
    | none => (trace, none)
    | some (cu_used, svm) =>
      let (rest_trace, rest) := measureLoopInstruction ext benchmark n svm
      (trace ++ rest_trace,
       rest.map fun (cu_measurements, svm) => (cu_used :: cu_measurements, svm))

/-- `benchmark_instruction` from runner.rs: set up the environment once,
perform the single discovery pass, perform `samples` measurement passes,
and assemble the result record. -/
def benchmark_instruction {σ : Type} (ext : ExternalModel σ)
    (benchmark : InstructionBenchmarkModel σ) (samples : Nat) :
    List Event × Option InstructionBenchmarkResult :=
  let svm := benchmark.setup_svm
  let (discover_trace, discovered) := discover_instruction_context ext benchmark svm
  match discovered with
  | none => (Event.setup :: discover_trace, none)
  | some (execution_context, svm) =>
    let (measure_trace, measured) := measureLoopInstruction ext benchmark samples svm
    match measured with
    | none => (Event.setup :: discover_trace ++ measure_trace, none)
    | some (cu_measurements, _) =>
      match ComputeUnitStats.from_measurements
          (StatType.Instruction benchmark.instruction_name) cu_measurements with
      | none => (Event.setup :: discover_trace ++ measure_trace, none)
      | some cu_estimate =>
        (Event.setup :: discover_trace ++ measure_trace,
         some { instruction_name := benchmark.instruction_name,
                cu_estimate := cu_estimate,
                execution_context := execution_context })

/-- The measurement loop of `benchmark_transaction`: each pass re-invokes the
transaction builder, executes (`measure_transaction_cu`), and records the
consumed compute units; the first failed pass aborts the run. -/
def measureLoopTransaction {σ : Type} (ext : ExternalModel σ)
    (benchmark : TransactionBenchmarkModel σ) :
    Nat → σ → List Event × Option (List Nat × σ)
  | 0, svm => ([], some ([], svm))
  | n + 1, svm =>
    let (tx, svm) := benchmark.build_transaction svm
    match ext.send_transaction svm tx with
    | none => ([Event.execute], none)
    | some (cu_used, svm) =>
      let (rest_trace, rest) := measureLoopTransaction ext benchmark n svm
      (Event.execute :: rest_trace,
       rest.map fun (cu_measurements, svm) => (cu_used :: cu_measurements, svm))

/-- `benchmark_transaction` from runner.rs: set up the environment once,
build the context transaction, perform the single discovery pass, perform
`samples` measurement passes, and assemble the result record. -/
def benchmark_transaction {σ : Type} (ext : ExternalModel σ)
    (benchmark : TransactionBenchmarkModel σ) (samples : Nat) :
    List Event × Option TransactionBenchmarkResult :=
  let svm := benchmark.setup_svm
  let (context_tx, svm) := benchmark.build_transaction svm
  let (discover_trace, discovered) := discover_transaction_context ext context_tx
    benchmark.transaction_name svm benchmark.address_book
  match discovered with
  | none => (Event.setup :: discover_trace, none)
  | some (execution_context, svm) =>
    let (measure_trace, measured) := measureLoopTransaction ext benchmark samples svm
    match measured with
    | none => (Event.setup :: discover_trace ++ measure_trace, none)
    | some (cu_measurements, _) =>
      match ComputeUnitStats.from_measurements
          (StatType.Transaction benchmark.transaction_name) cu_measurements with
      | none => (Event.setup :: discover_trace ++ measure_trace, none)
      | some cu_estimate =>
        (Event.setup :: discover_trace ++ measure_trace,
         some { transaction_name := benchmark.transaction_name,
                cu_estimate := cu_estimate,
                execution_context := execution_context })

/-! ## Concrete fixtures used to evaluate the embedded code -/

/-- Sum of the per-program invocation counts in a usage table. -/
def sumCounts (usage : List (Pubkey × Nat)) : Nat := (usage.map Prod.snd).sum

/-- A concrete environment model over `Nat` states: expiring the blockhash
advances the state, simulation always succeeds with empty inner instructions
and 5 consumed units, execution always succeeds with 7 consumed units. -/
def extFixture : ExternalModel Nat :=
  { expire_blockhash := fun s => s + 1,
    latest_blockhash := fun s => s,
    clock_slot := fun s => s,
    message_new := fun ix payer => { account_keys := [payer, ix.program_id],
                                     instructions := [{ program_id_index := 1 }],
                                     recent_blockhash := 0 },
    simulate_transaction := fun _ _ =>
      some { meta := { inner_instructions := [], logs := [], compute_units_consumed := 5 } },
    send_transaction := fun s _ => some (7, s + 1) }

/-- A misconfigured instruction benchmark whose work builder returns an empty
required-signer list. -/
def benchEmptySigners : InstructionBenchmarkModel Nat :=
  { instruction_name := "empty",
    setup_svm := 0,
    build_instruction := fun s => (({ program_id := 3 }, []), s),
    sign_transaction := fun tx => tx,
    address_book := [] }

/-- A well-configured instruction benchmark addressing program 3, paid by
signer 9. -/
def benchInstrFixture : InstructionBenchmarkModel Nat :=
  { instruction_name := "good",
    setup_svm := 0,
    build_instruction := fun s => (({ program_id := 3 }, [9]), s),
    sign_transaction := fun tx => tx,
    address_book := [(3, "prog"), (9, "payer")] }

/-- A well-configured transaction benchmark whose transaction holds one
instruction addressed to program 3. -/
def benchTxFixture : TransactionBenchmarkModel Nat :=
  { transaction_name := "wf",
    setup_svm := 0,
    build_transaction := fun s =>
      ({ message := { account_keys := [3], instructions := [{ program_id_index := 0 }],
                      recent_blockhash := 0 } }, s),
    address_book := [(3, "prog")] }

/-- A one-instruction transaction addressed to program 5. -/
def txSingle : Transaction :=
  { message := { account_keys := [5], instructions := [{ program_id_index := 0 }],
                 recent_blockhash := 0 } }

/-- A simulation whose single inner-instruction set holds two inner calls to
the program at account-key index 0. -/
def simTwoInnerOneSet : SimulatedTransactionInfo :=
  { meta := { inner_instructions :=
                [[{ instruction := { program_id_index := 0 } },
                  { instruction := { program_id_index := 0 } }]],
              logs := [], compute_units_consumed := 0 } }

/-- Address book naming program 5. -/
def abSingle : AddressBook := [(5, "P")]

/-- A two-operation transaction whose operations both address program 0
(account-key index 0), with account keys `[0, 1]`. -/
def txTwoOps : Transaction :=
  { message := { account_keys := [0, 1],
                 instructions := [{ program_id_index := 0 }, { program_id_index := 0 }],
                 recent_blockhash := 0 } }

/-- A simulation with one inner-instruction set holding two inner calls to
the program at account-key index 1. -/
def simTwoInnerCallsY : SimulatedTransactionInfo :=
  { meta := { inner_instructions :=
                [[{ instruction := { program_id_index := 1 } },
                  { instruction := { program_id_index := 1 } }]],
              logs := [], compute_units_consumed := 0 } }

/-- Address book naming programs 0 and 1. -/
def abXY : AddressBook := [(0, "X"), (1, "Y")]

/-- The program context extracted from `txSingle` under `simTwoInnerOneSet`. -/
def pcSingle : ProgramContext :=
  { program_id := 5, program_name := "P", cpi_count := 1 }

/-- The workflow context extracted from `txSingle` under
`simTwoInnerOneSet`. -/
def wcSingle : WorkflowContext :=
  { workflow_name := "w",
    involved_programs :=
      [{ program_id := 5, program_name := "P", instruction_count := 3 }],
    cpi_sequence := ["P", "P_cpi", "P_cpi"],
    total_cpi_calls := 1 }

/-! ## Helper lemmas -/

/-- The percentile index `m * P / 100` never exceeds `m` when `P ≤ 100`. -/
lemma percentile_index_le (m P : Nat) (h : P ≤ 100) : m * P / 100 ≤ m := by
  calc m * P / 100 ≤ m * 100 / 100 :=
        Nat.div_le_div_right (Nat.mul_le_mul_left m h)
    _ = m := by omega

/-- Sorting is a function of the input multiset: permuted inputs sort to the
same list. -/
lemma insertionSort_eq_of_perm {l₁ l₂ : List Nat} (h : l₁.Perm l₂) :
    List.insertionSort (· ≤ ·) l₁ = List.insertionSort (· ≤ ·) l₂ :=
  List.eq_of_perm_of_sorted
    ((List.perm_insertionSort _ l₁).trans (h.trans (List.perm_insertionSort _ l₂).symm))
    (List.sorted_insertionSort _ l₁) (List.sorted_insertionSort _ l₂)

/-- Bumping one program's count raises the total invocation count by one. -/
lemma sumCounts_bumpUsage (usage : List (Pubkey × Nat)) (k : Pubkey) :
    sumCounts (bumpUsage usage k) = sumCounts usage + 1 := by
  induction usage with
  | nil => simp [bumpUsage, sumCounts]
  | cons hd tl ih =>
    obtain ⟨k', v⟩ := hd
    by_cases hk : k = k'
    · simp [bumpUsage, if_pos hk, sumCounts]
      omega
    · simp [bumpUsage, if_neg hk, sumCounts] at ih ⊢
      omega

/-- Each processed top-level instruction adds exactly one call-sequence entry
and exactly one usage increment. -/
lemma walkDirectCalls_sum (tx : Transaction) (ab : AddressBook)
    (ixs : List CompiledInstruction) :
    ∀ (u : List (Pubkey × Nat)) (s : List String) (u' : List (Pubkey × Nat))
      (s' : List String),
      walkDirectCalls tx ab ixs (u, s) = some (u', s') →
      sumCounts u' + s.length = sumCounts u + s'.length := by
  induction ixs with
  | nil =>
    intro u s u' s' h
    simp [walkDirectCalls] at h
    obtain ⟨h1, h2⟩ := h
    rw [h1, h2]
  | cons ix rest ih =>
    intro u s u' s' h
    unfold walkDirectCalls at h
    cases hk : tx.message.account_keys[ix.program_id_index]? with
    | none => rw [hk] at h; simp at h
    | some pid =>
      rw [hk] at h
      try simp only [Option.bind_eq_bind, Option.some_bind] at h
      have := ih _ _ _ _ h
      rw [sumCounts_bumpUsage] at this
      simp only [List.length_append, List.length_cons, List.length_nil] at this
      omega

/-- Each processed inner call of one set adds exactly one call-sequence entry
and exactly one usage increment. -/
lemma walkInnerSet_sum (tx : Transaction) (ab : AddressBook)
    (calls : List InnerInstruction) :
    ∀ (u : List (Pubkey × Nat)) (s : List String) (u' : List (Pubkey × Nat))
      (s' : List String),
      walkInnerSet tx ab calls (u, s) = some (u', s') →
      sumCounts u' + s.length = sumCounts u + s'.length := by
  induction calls with
  | nil =>
    intro u s u' s' h
    simp [walkInnerSet] at h
    obtain ⟨h1, h2⟩ := h
    rw [h1, h2]
  | cons call rest ih =>
    intro u s u' s' h
    unfold walkInnerSet at h
    cases hk : tx.message.account_keys[call.instruction.program_id_index]? with
    | none => rw [hk] at h; simp at h
    | some pid =>
      rw [hk] at h
      try simp only [Option.bind_eq_bind, Option.some_bind] at h
      have := ih _ _ _ _ h
      rw [sumCounts_bumpUsage] at this
      simp only [List.length_append, List.length_cons, List.length_nil] at this
      omega

/-- Each processed inner call across all sets adds exactly one call-sequence
entry and exactly one usage increment. -/
lemma walkInnerCalls_sum (tx : Transaction) (ab : AddressBook)
    (sets : List (List InnerInstruction)) :
    ∀ (u : List (Pubkey × Nat)) (s : List String) (u' : List (Pubkey × Nat))
      (s' : List String),
      walkInnerCalls tx ab sets (u, s) = some (u', s') →
      sumCounts u' + s.length = sumCounts u + s'.length := by
  induction sets with
  | nil =>
    intro u s u' s' h
    simp [walkInnerCalls] at h
    obtain ⟨h1, h2⟩ := h
    rw [h1, h2]
  | cons set rest ih =>
    intro u s u' s' h
    unfold walkInnerCalls at h
    cases hs : walkInnerSet tx ab set (u, s) with
    | none => rw [hs] at h; simp at h
    | some acc =>
      obtain ⟨u1, s1⟩ := acc
      rw [hs] at h
      try simp only [Option.bind_eq_bind, Option.some_bind] at h
      have h1 := walkInnerSet_sum tx ab set u s u1 s1 hs
      have h2 := ih _ _ _ _ h
      omega

/-- Projecting `instruction_count` back out of the `ProgramInfo` conversion
recovers the usage counts. -/
lemma sum_map_programInfo (ab : AddressBook) (u : List (Pubkey × Nat)) :
    ((u.map fun (program_id, instruction_count) =>
        ({ program_id := program_id,
           program_name := lookup_program_name program_id ab,
           instruction_count := instruction_count } : ProgramInfo)).map
      ProgramInfo.instruction_count).sum = sumCounts u := by
  induction u with
  | nil => rfl
  | cons hd tl ih =>
    obtain ⟨a, b⟩ := hd
    simp only [List.map_cons, List.sum_cons, sumCounts] at ih ⊢
    omega

/-- A successful `from_measurements` reports the input length as
`sample_size`. -/
lemma from_measurements_sample_size (st : StatType) (l : List Nat)
    (stats : ComputeUnitStats)
    (h : ComputeUnitStats.from_measurements st l = some stats) :
    stats.sample_size = l.length := by
  simp only [ComputeUnitStats.from_measurements] at h
  split at h
  · rw [← Option.some.inj h]
    exact List.length_insertionSort _ l
  · exact absurd h (by simp)

/-- A successful instruction measurement loop returns exactly one sample per
requested pass. -/
lemma measureLoopInstruction_length {σ : Type} (ext : ExternalModel σ)
    (B : InstructionBenchmarkModel σ) :
    ∀ (n : Nat) (svm : σ) (tr : List Event) (ms : List Nat) (s' : σ),
      measureLoopInstruction ext B n svm = (tr, some (ms, s')) →
      ms.length = n := by
  intro n
  induction n with
  | zero =>
    intro svm tr ms s' h
    simp [measureLoopInstruction] at h
    rw [h.2.1]
    rfl
  | succ n ih =>
    intro svm tr ms s' h
    unfold measureLoopInstruction at h
    rcases hm : measure_instruction ext B svm with ⟨trace, outcome⟩
    rw [hm] at h
    dsimp only at h
    cases outcome with
    | none => simp at h
    | some p =>
      obtain ⟨cu, svm2⟩ := p
      dsimp only at h
      rcases hr : measureLoopInstruction ext B n svm2 with ⟨rtr, rres⟩
      rw [hr] at h
      dsimp only at h
      cases rres with
      | none => simp at h
      | some q =>
        obtain ⟨ms1, s1⟩ := q
        simp only [Option.map_some, Prod.mk.injEq, Option.some.injEq] at h
        obtain ⟨h1, h2, h3⟩ := h
        simp [ih svm2 rtr ms1 s1 hr]

/-- A successful transaction measurement loop returns exactly one sample per
requested pass. -/
lemma measureLoopTransaction_length {σ : Type} (ext : ExternalModel σ)
    (B : TransactionBenchmarkModel σ) :
    ∀ (n : Nat) (svm : σ) (tr : List Event) (ms : List Nat) (s' : σ),
      measureLoopTransaction ext B n svm = (tr, some (ms, s')) →
      ms.length = n := by
  intro n
  induction n with
  | zero =>
    intro svm tr ms s' h
    simp [measureLoopTransaction] at h
    rw [h.2.1]
    rfl
  | succ n ih =>
    intro svm tr ms s' h
    unfold measureLoopTransaction at h
    rcases hb : B.build_transaction svm with ⟨tx, svm1⟩
    rw [hb] at h
    dsimp only at h
    cases hs : ext.send_transaction svm1 tx with
    | none => rw [hs] at h; simp at h
    | some p =>
      obtain ⟨cu, svm2⟩ := p
      rw [hs] at h
      dsimp only at h
      rcases hr : measureLoopTransaction ext B n svm2 with ⟨rtr, rres⟩
      rw [hr] at h
      dsimp only at h
      cases rres with
      | none => simp at h
      | some q =>
        obtain ⟨ms1, s1⟩ := q
        simp only [Option.map_some, Prod.mk.injEq, Option.some.injEq] at h
        obtain ⟨h1, h2, h3⟩ := h
        simp [ih svm2 rtr ms1 s1 hr]

end CuBench

namespace CuBench

/-! ## Claims about the percentile estimator -/

/-- C1: for every non-empty list of samples, `ComputeUnitStats.from_measurements`
sorts the samples ascending and returns `min` equal to the first sorted
element, `unsafe_max` equal to the last sorted element, and each named
percentile P in {25, 50, 75, 95} equal to the sorted element at zero-based
index `(N - 1) * P / 100`.  The sorted list is characterised as any sorted
permutation `s'` of the input. -/
theorem c1_percentile_indexing (st : StatType) (l s' : List Nat)
    (hne : l ≠ []) (hperm : l.Perm s') (hsorted : s'.Sorted (· ≤ ·)) :
    ∃ stats, ComputeUnitStats.from_measurements st l = some stats ∧
      stats.sample_size = s'.length ∧
      s'[0]? = some stats.min ∧
      s'[s'.length - 1]? = some stats.unsafe_max ∧
      s'[(s'.length - 1) * 25 / 100]? = some stats.conservative ∧
      s'[(s'.length - 1) * 50 / 100]? = some stats.balanced ∧
      s'[(s'.length - 1) * 75 / 100]? = some stats.safe ∧
      s'[(s'.length - 1) * 95 / 100]? = some stats.very_high := by
  have hs : s' = List.insertionSort (· ≤ ·) l :=
    List.eq_of_perm_of_sorted
      (hperm.symm.trans (List.perm_insertionSort _ l).symm) hsorted
      (List.sorted_insertionSort _ l)
  have hlen : (List.insertionSort (· ≤ ·) l).length = l.length :=
    List.length_insertionSort _ l
  have hne' : List.insertionSort (· ≤ ·) l ≠ [] := by
    intro h0
    exact hne (List.length_eq_zero.mp (by rw [← hlen, h0]; rfl))
  subst hs
  set t := List.insertionSort (· ≤ ·) l with ht
  have hpos : 0 < t.length := List.length_pos.mpr hne'
  have hmax : t.length - 1 < t.length := Nat.sub_lt hpos one_pos
  have h25 : (t.length - 1) * 25 / 100 < t.length :=
    lt_of_le_of_lt (percentile_index_le _ _ (by norm_num)) hmax
  have h50 : (t.length - 1) * 50 / 100 < t.length :=
    lt_of_le_of_lt (percentile_index_le _ _ (by norm_num)) hmax
  have h75 : (t.length - 1) * 75 / 100 < t.length :=
    lt_of_le_of_lt (percentile_index_le _ _ (by norm_num)) hmax
  have h95 : (t.length - 1) * 95 / 100 < t.length :=
    lt_of_le_of_lt (percentile_index_le _ _ (by norm_num)) hmax
  refine ⟨{ stat_type := st, min := t.get ⟨0, hpos⟩,
            conservative := t.get ⟨(t.length - 1) * 25 / 100, h25⟩,
            balanced := t.get ⟨(t.length - 1) * 50 / 100, h50⟩,
            safe := t.get ⟨(t.length - 1) * 75 / 100, h75⟩,
            very_high := t.get ⟨(t.length - 1) * 95 / 100, h95⟩,
            unsafe_max := t.get ⟨t.length - 1, hmax⟩,
            sample_size := t.length }, ?_, rfl, ?_, ?_, ?_, ?_, ?_, ?_⟩
  · simp only [ComputeUnitStats.from_measurements, ← ht]
    rw [List.getElem?_eq_getElem hpos, List.getElem?_eq_getElem hmax,
      List.getElem?_eq_getElem h25, List.getElem?_eq_getElem h50,
      List.getElem?_eq_getElem h75, List.getElem?_eq_getElem h95]
    rfl
  · exact List.getElem?_eq_getElem hpos
  · exact List.getElem?_eq_getElem hmax
  · exact List.getElem?_eq_getElem h25
  · exact List.getElem?_eq_getElem h50
  · exact List.getElem?_eq_getElem h75
  · exact List.getElem?_eq_getElem h95

/-- C1 witness: the theorem applied to the concrete samples `[3, 1, 2]`,
whose ascending sorted permutation is `[1, 2, 3]`. -/
theorem c1_percentile_indexing_witness :
    ∃ stats, ComputeUnitStats.from_measurements (StatType.Instruction "w")
        [3, 1, 2] = some stats ∧
      stats.sample_size = [1, 2, 3].length ∧
      [1, 2, 3][0]? = some stats.min ∧
      [1, 2, 3][([1, 2, 3].length - 1)]? = some stats.unsafe_max ∧
      [1, 2, 3][([1, 2, 3].length - 1) * 25 / 100]? = some stats.conservative ∧
      [1, 2, 3][([1, 2, 3].length - 1) * 50 / 100]? = some stats.balanced ∧
      [1, 2, 3][([1, 2, 3].length - 1) * 75 / 100]? = some stats.safe ∧
      [1, 2, 3][([1, 2, 3].length - 1) * 95 / 100]? = some stats.very_high :=
  c1_percentile_indexing (StatType.Instruction "w") [3, 1, 2] [1, 2, 3]
    (by decide) (by decide) (by decide)

/-- C2: the two percentile-indexing formulas in the source disagree: on the
samples `[10, 20, 30, 40]` the mod.rs estimator (index `len * P / 100`) and
the estimate.rs estimator (index `(len - 1) * P / 100`) return different
values for every shared named percentile field. -/
theorem c2_divergent_index_formulas :
    ∃ l : List Nat, l ≠ [] ∧
      (ComputeUnitEstimate.from_measurements "x" l ["litesvm"]).map
          (fun e => (e.conservative, e.balanced, e.safe, e.very_high)) ≠
        (ComputeUnitStats.from_measurements (StatType.Instruction "x") l).map
          (fun s => (s.conservative, s.balanced, s.safe, s.very_high)) :=
  ⟨[10, 20, 30, 40], by decide, by decide⟩

/-- C3: on the empty sample list, `ComputeUnitStats.from_measurements` does
not return a statistics record: the Rust code's `sorted[0]` panics, which the
embedding reports as `none`. -/
theorem c3_empty_samples_fail (st : StatType) :
    ComputeUnitStats.from_measurements st [] = none := rfl

/-- C3 witness: the theorem applied at a concrete benchmark label. -/
theorem c3_empty_samples_fail_witness :
    ComputeUnitStats.from_measurements (StatType.Instruction "e") [] = none :=
  c3_empty_samples_fail (StatType.Instruction "e")

/-- C9: `ComputeUnitStats.from_measurements` is invariant under permutation
of the input samples: input order has no effect on the output record. -/
theorem c9_permutation_invariant (st : StatType) (l₁ l₂ : List Nat)
    (h : l₁.Perm l₂) :
    ComputeUnitStats.from_measurements st l₁ =
      ComputeUnitStats.from_measurements st l₂ := by
  unfold ComputeUnitStats.from_measurements
  rw [insertionSort_eq_of_perm h]

/-- C9 witness: the theorem applied to the concrete permuted sample lists
`[5, 9, 9, 1]` and `[9, 1, 5, 9]`. -/
theorem c9_permutation_invariant_witness :
    ComputeUnitStats.from_measurements (StatType.Transaction "p") [5, 9, 9, 1] =
      ComputeUnitStats.from_measurements (StatType.Transaction "p") [9, 1, 5, 9] :=
  c9_permutation_invariant (StatType.Transaction "p") [5, 9, 9, 1] [9, 1, 5, 9]
    (by decide)

/-! ## Claims about the execution-context extractor -/

/-- C4 counterexample: a discovery pass over a two-operation workflow whose
first operation addresses program X = 0 and whose simulated nested calls
address program Y = 1 twice yields a `cpi_sequence` of length 4 (each of the
two direct operations contributes one entry, each nested call one more) and
an `involved_programs` table of {X: 2, Y: 2}, not the claimed length 3 and
{X: 1, Y: 2}. -/
theorem c4_two_op_counterexample :
    (extract_workflow_context txTwoOps simTwoInnerCallsY "wf" abXY).map
        (fun wc => wc.cpi_sequence.length) = some 4 ∧
    (extract_workflow_context txTwoOps simTwoInnerCallsY "wf" abXY).map
        (fun wc => wc.cpi_sequence.length) ≠ some 3 ∧
    (extract_workflow_context txTwoOps simTwoInnerCallsY "wf" abXY).map
        (fun wc => wc.involved_programs.map fun p => (p.program_id, p.instruction_count)) =
      some [(0, 2), (1, 2)] := by
  decide

/-- C4 amended: for a discovery pass over a ONE-operation workflow whose
operation addresses program X and whose simulated nested calls address
program Y twice (X ≠ Y), `extract_workflow_context` yields
`involved_programs = {X: 1, Y: 2}` and a `cpi_sequence` of length 3 with the
direct program entry preceding the nested entries. -/
theorem c4_single_op_workflow (X Y : Pubkey) (ab : AddressBook) (name : String)
    (bh : Hash) (logs : List String) (cu : Nat) (hXY : X ≠ Y) :
    extract_workflow_context
        { message := { account_keys := [X, Y],
                       instructions := [{ program_id_index := 0 }],
                       recent_blockhash := bh } }
        { meta := { inner_instructions :=
                      [[{ instruction := { program_id_index := 1 } },
                        { instruction := { program_id_index := 1 } }]],
                    logs := logs, compute_units_consumed := cu } }
        name ab =
      some { workflow_name := name,
             involved_programs :=
               [{ program_id := X, program_name := lookup_program_name X ab,
                  instruction_count := 1 },
                { program_id := Y, program_name := lookup_program_name Y ab,
                  instruction_count := 2 }],
             cpi_sequence :=
               [lookup_program_name X ab,
                lookup_program_name Y ab ++ "_cpi",
                lookup_program_name Y ab ++ "_cpi"],
             total_cpi_calls := 1 } := by
  simp [extract_workflow_context, walkDirectCalls, walkInnerCalls, walkInnerSet,
    bumpUsage, Ne.symm hXY]

/-- C4 witness: the amended theorem applied at X = 0, Y = 1 with both
programs named in the address book. -/
theorem c4_single_op_workflow_witness :
    extract_workflow_context
        { message := { account_keys := [0, 1],
                       instructions := [{ program_id_index := 0 }],
                       recent_blockhash := 0 } }
        { meta := { inner_instructions :=
                      [[{ instruction := { program_id_index := 1 } },
                        { instruction := { program_id_index := 1 } }]],
                    logs := [], compute_units_consumed := 0 } }
        "wf" abXY =
      some { workflow_name := "wf",
             involved_programs :=
               [{ program_id := 0, program_name := lookup_program_name 0 abXY,
                  instruction_count := 1 },
                { program_id := 1, program_name := lookup_program_name 1 abXY,
                  instruction_count := 2 }],
             cpi_sequence :=
               [lookup_program_name 0 abXY,
                lookup_program_name 1 abXY ++ "_cpi",
                lookup_program_name 1 abXY ++ "_cpi"],
             total_cpi_calls := 1 } :=
  c4_single_op_workflow 0 1 abXY "wf" 0 [] 0 (by decide)

/-- C5 counterexample: under a simulation whose single inner-instruction set
holds two inner calls, `cpi_count` and `total_cpi_calls` are 1 (the number
of inner-instruction sets, `inner_instructions.len()`), while the total
number of inner calls — the sum over the sets of their sizes — is 2. -/
theorem c5_set_count_counterexample :
    (extract_program_context txSingle simTwoInnerOneSet abSingle).map
        ProgramContext.cpi_count = some 1 ∧
    (extract_workflow_context txSingle simTwoInnerOneSet "w" abSingle).map
        WorkflowContext.total_cpi_calls = some 1 ∧
    (simTwoInnerOneSet.meta.inner_instructions.map List.length).sum = 2 := by
  decide

/-- C5 amended: the nested-call-count field of the extracted context
(`cpi_count` in instruction mode, `total_cpi_calls` in transaction mode)
equals the NUMBER OF INNER-INSTRUCTION SETS reported by the simulation
(`inner_instructions.len()`), not the sum of their sizes. -/
theorem c5_cpi_count_is_set_count (tx : Transaction)
    (sim : SimulatedTransactionInfo) (ab : AddressBook) (name : String)
    (pc : ProgramContext) (wc : WorkflowContext)
    (hp : extract_program_context tx sim ab = some pc)
    (hw : extract_workflow_context tx sim name ab = some wc) :
    pc.cpi_count = sim.meta.inner_instructions.length ∧
    wc.total_cpi_calls = sim.meta.inner_instructions.length := by
  constructor
  · unfold extract_program_context at hp
    cases h1 : tx.message.instructions[0]? with
    | none => rw [h1] at hp; simp at hp
    | some ti =>
      rw [h1] at hp
      try simp only [Option.bind_eq_bind, Option.some_bind] at hp
      cases h2 : tx.message.account_keys[ti.program_id_index]? with
      | none => rw [h2] at hp; simp at hp
      | some pid =>
        rw [h2] at hp
        try simp only [Option.bind_eq_bind, Option.some_bind] at hp
        rw [← Option.some.inj hp]
  · unfold extract_workflow_context at hw
    cases h1 : walkDirectCalls tx ab tx.message.instructions ([], []) with
    | none => rw [h1] at hw; simp at hw
    | some acc1 =>
      obtain ⟨u1, s1⟩ := acc1
      rw [h1] at hw
      try simp only [Option.bind_eq_bind, Option.some_bind] at hw
      cases h2 : walkInnerCalls tx ab sim.meta.inner_instructions (u1, s1) with
      | none => rw [h2] at hw; simp at hw
      | some acc2 =>
        obtain ⟨u2, s2⟩ := acc2
        rw [h2] at hw
        try simp only [Option.bind_eq_bind, Option.some_bind] at hw
        rw [← Option.some.inj hw]

/-- C5 witness: the amended theorem applied to the concrete one-instruction
transaction and the simulation with one set of two inner calls. -/
theorem c5_cpi_count_is_set_count_witness :
    pcSingle.cpi_count = simTwoInnerOneSet.meta.inner_instructions.length ∧
    wcSingle.total_cpi_calls = simTwoInnerOneSet.meta.inner_instructions.length :=
  c5_cpi_count_is_set_count txSingle simTwoInnerOneSet abSingle "w"
    pcSingle wcSingle (by decide) (by decide)

/-- C10: whenever `extract_workflow_context` produces a `WorkflowContext`,
the length of `cpi_sequence` equals the sum of `instruction_count` over the
`involved_programs` entries: each direct instruction and each simulated
inner instruction contributes exactly one sequence entry and exactly one
increment to exactly one program's count. -/
theorem c10_sequence_length_eq_count_sum (tx : Transaction)
    (sim : SimulatedTransactionInfo) (name : String) (ab : AddressBook)
    (wc : WorkflowContext)
    (h : extract_workflow_context tx sim name ab = some wc) :
    wc.cpi_sequence.length =
      (wc.involved_programs.map ProgramInfo.instruction_count).sum := by
  unfold extract_workflow_context at h
  cases h1 : walkDirectCalls tx ab tx.message.instructions ([], []) with
  | none => rw [h1] at h; simp at h
  | some acc1 =>
    obtain ⟨u1, s1⟩ := acc1
    rw [h1] at h
    try simp only [Option.bind_eq_bind, Option.some_bind] at h
    cases h2 : walkInnerCalls tx ab sim.meta.inner_instructions (u1, s1) with
    | none => rw [h2] at h; simp at h
    | some acc2 =>
      obtain ⟨u2, s2⟩ := acc2
      rw [h2] at h
      try simp only [Option.bind_eq_bind, Option.some_bind] at h
      have d1 := walkDirectCalls_sum tx ab tx.message.instructions [] [] u1 s1 h1
      have d2 := walkInnerCalls_sum tx ab sim.meta.inner_instructions u1 s1 u2 s2 h2
      simp only [sumCounts, List.map_nil, List.sum_nil, List.length_nil] at d1
      rw [← Option.some.inj h]
      simp only [sum_map_programInfo]
      simp only [sumCounts] at d1 d2 ⊢
      omega

/-- C10 witness: the theorem applied to the concrete one-instruction
transaction and the simulation with one set of two inner calls, whose
extracted context is `wcSingle`. -/
theorem c10_sequence_length_eq_count_sum_witness :
    wcSingle.cpi_sequence.length =
      (wcSingle.involved_programs.map ProgramInfo.instruction_count).sum :=
  c10_sequence_length_eq_count_sum txSingle simTwoInnerOneSet "w" abSingle
    wcSingle (by decide)

/-! ## Claims about the benchmark runner -/

/-- C6: any full run of `benchmark_instruction` or `benchmark_transaction`
with `samples = n` that completes reports `cu_estimate.sample_size = n`,
the number of executed measurement passes; the single simulated discovery
pass is not counted. -/
theorem c6_sample_size_counts_measurement_passes {σ σ' : Type}
    (ext : ExternalModel σ) (ext' : ExternalModel σ')
    (bi : InstructionBenchmarkModel σ) (bt : TransactionBenchmarkModel σ')
    (n : Nat) (tri trt : List Event) (ri : InstructionBenchmarkResult)
    (rt : TransactionBenchmarkResult)
    (hi : benchmark_instruction ext bi n = (tri, some ri))
    (htx : benchmark_transaction ext' bt n = (trt, some rt)) :
    ri.cu_estimate.sample_size = n ∧ rt.cu_estimate.sample_size = n := by
  constructor
  · unfold benchmark_instruction at hi
    dsimp only at hi
    rcases hd : discover_instruction_context ext bi bi.setup_svm with ⟨dtr, dres⟩
    rw [hd] at hi
    dsimp only at hi
    cases dres with
    | none => simp at hi
    | some p =>
      obtain ⟨ctx, svm1⟩ := p
      dsimp only at hi
      rcases hm : measureLoopInstruction ext bi n svm1 with ⟨mtr, mres⟩
      rw [hm] at hi
      dsimp only at hi
      cases mres with
      | none => simp at hi
      | some q =>
        obtain ⟨ms, svmf⟩ := q
        dsimp only at hi
        cases hf : ComputeUnitStats.from_measurements
            (StatType.Instruction bi.instruction_name) ms with
        | none => rw [hf] at hi; simp at hi
        | some stats =>
          rw [hf] at hi
          dsimp only at hi
          injection hi with hA hB
          injection hB with hB
          rw [← hB]
          exact (from_measurements_sample_size _ _ _ hf).trans
            (measureLoopInstruction_length ext bi n svm1 mtr ms svmf hm)
  · unfold benchmark_transaction at htx
    rcases hb : bt.build_transaction bt.setup_svm with ⟨ctx_tx, svm0⟩
    simp only [hb] at htx
    rcases hd : discover_transaction_context ext' ctx_tx bt.transaction_name
        svm0 bt.address_book with ⟨dtr, dres⟩
    rw [hd] at htx
    dsimp only at htx
    cases dres with
    | none => simp at htx
    | some p =>
      obtain ⟨ctx, svm1⟩ := p
      dsimp only at htx
      rcases hm : measureLoopTransaction ext' bt n svm1 with ⟨mtr, mres⟩
      rw [hm] at htx
      dsimp only at htx
      cases mres with
      | none => simp at htx
      | some q =>
        obtain ⟨ms, svmf⟩ := q
        dsimp only at htx
        cases hf : ComputeUnitStats.from_measurements
            (StatType.Transaction bt.transaction_name) ms with
        | none => rw [hf] at htx; simp at htx
        | some stats =>
          rw [hf] at htx
          dsimp only at htx
          injection htx with hA hB
          injection hB with hB
          rw [← hB]
          exact (from_measurements_sample_size _ _ _ hf).trans
            (measureLoopTransaction_length ext' bt n svm1 mtr ms svmf hm)

/-- C6 witness: the theorem applied to the concrete fixtures, requesting 2
measurement passes in each mode. -/
theorem c6_sample_size_witness :
    ∃ (tri : List Event) (ri : InstructionBenchmarkResult)
      (trt : List Event) (rt : TransactionBenchmarkResult),
      benchmark_instruction extFixture benchInstrFixture 2 = (tri, some ri) ∧
      benchmark_transaction extFixture benchTxFixture 2 = (trt, some rt) ∧
      ri.cu_estimate.sample_size = 2 ∧ rt.cu_estimate.sample_size = 2 := by
  refine ⟨_, _, _, _, rfl, rfl, ?_, ?_⟩
  · exact (c6_sample_size_counts_measurement_passes extFixture extFixture
      benchInstrFixture benchTxFixture 2 _ _ _ _ rfl rfl).1
  · exact (c6_sample_size_counts_measurement_passes extFixture extFixture
      benchInstrFixture benchTxFixture 2 _ _ _ _ rfl rfl).2

/-- C7 counterexample: for a benchmark whose work builder returns an empty
required-signer list, the run's event trace contains `Event.setup` (the
one-time environment setup) and `Event.expireBlockhash` (a blockhash
refresh) before the failure, so the failure does NOT occur before any
environment work begins, contrary to the claim. -/
theorem c7_setup_precedes_failure_counterexample :
    (benchmark_instruction extFixture benchEmptySigners 5).2 = none ∧
    Event.setup ∈ (benchmark_instruction extFixture benchEmptySigners 5).1 ∧
    (benchmark_instruction extFixture benchEmptySigners 5).1 ≠ [] := by
  decide

/-- C7 amended: for every benchmark whose work builder returns an empty
required-signer list, the run fails (no result is produced) before any
simulation or execution is performed — the event trace is exactly the
one-time environment setup followed by one blockhash expiry, after which
the `signer_pubkeys[0]` indexing panics. -/
theorem c7_empty_signers_fail_before_simulation {σ : Type}
    (ext : ExternalModel σ) (benchmark : InstructionBenchmarkModel σ)
    (samples : Nat)
    (h : ∀ svm, ((benchmark.build_instruction svm).1).2 = ([] : List Pubkey)) :
    (benchmark_instruction ext benchmark samples).2 = none ∧
    (benchmark_instruction ext benchmark samples).1 =
      [Event.setup, Event.expireBlockhash] := by
  unfold benchmark_instruction discover_instruction_context
  rcases hb : benchmark.build_instruction benchmark.setup_svm with ⟨⟨ix, signers⟩, svm1⟩
  have hsig : signers = [] := by
    have h0 := h benchmark.setup_svm
    rw [hb] at h0
    exact h0
  subst hsig
  simp [hb]

/-- C7 witness: the amended theorem applied to the concrete empty-signer
benchmark fixture with 5 requested samples. -/
theorem c7_empty_signers_fail_witness :
    (benchmark_instruction extFixture benchEmptySigners 5).2 = none ∧
    (benchmark_instruction extFixture benchEmptySigners 5).1 =
      [Event.setup, Event.expireBlockhash] :=
  c7_empty_signers_fail_before_simulation extFixture benchEmptySigners 5
    (fun _ => rfl)

end CuBench
